import Mathlib

/-
Verification of the edge-storage-usage tool (src/edge-storage-usage.py).

The Python source is shallowly embedded below.  Pure numeric and string
logic is translated directly; filesystem and OS interaction is modelled by
explicit oracles (an `Env` for the user/home/dscl world, a `Node` tree for
filesystem contents) so that every code path of the source is represented.
Python float division with a power-of-two divisor followed by formatting
with two decimal places is modelled as exact rational division rounded at
two decimals with round-half-to-even, which coincides with CPython float
formatting for every byte count below 2^53 times the unit.  ANSI colors
and fixed-width padding are presentation only and are not modelled; output
is modelled structurally as a list of typed lines.
-/

namespace EdgeStorage

/-! ## Byte formatting (source lines 19-47) -/

/-- Source constant KB = 1024. -/
def KB : Int := 1024

/-- Source constant MB = 1024 * 1024. -/
def MB : Int := 1024 * 1024

/-- Source constant GB = 1024 * 1024 * 1024. -/
def GB : Int := 1024 * 1024 * 1024

/-- Round q / d to the nearest integer, ties to even: the rounding CPython
applies when formatting the exact double q / (100 d) with two decimals. -/
def roundHalfEven (q d : Nat) : Nat :=
  if d < 2 * (q % d) then q / d + 1
  else if 2 * (q % d) < d then q / d
  else q / d + (q / d) % 2

/-- Render a centi-scaled value c as the decimal string c/100 with exactly
two digits after the point, as the format specifier .2f does. -/
def twoDecimalString (c : Nat) : String :=
  toString (c / 100) ++ "." ++ (if c % 100 < 10 then "0" else "") ++ toString (c % 100)

/-- Embedding of format_bytes (source lines 38-47).  The source computes
bytes_size / unit as a float and formats it with two decimals; here the
quotient is kept exact and rounded half-to-even at two decimals, which is
what CPython prints whenever the double is exact (all inputs below
2^53 times the unit, covering every value the tool can encounter). -/
def format_bytes (bytes_size : Int) : String :=
  if bytes_size < KB then toString bytes_size ++ "B"
  else if bytes_size < MB then
    twoDecimalString (roundHalfEven (100 * bytes_size.toNat) 1024) ++ "KB"
  else if bytes_size < GB then
    twoDecimalString (roundHalfEven (100 * bytes_size.toNat) (1024 * 1024)) ++ "MB"
  else
    twoDecimalString (roundHalfEven (100 * bytes_size.toNat) (1024 * 1024 * 1024)) ++ "GB"

/-- The numeric value format_bytes renders, scaled by 100: below KB the raw
byte count is printed, otherwise the half-even-rounded centi-value of the
quotient by the chosen unit. -/
def renderedCenti (bytes_size : Int) : Int :=
  if bytes_size < KB then 100 * bytes_size
  else if bytes_size < MB then (roundHalfEven (100 * bytes_size.toNat) 1024 : Int)
  else if bytes_size < GB then (roundHalfEven (100 * bytes_size.toNat) (1024 * 1024) : Int)
  else (roundHalfEven (100 * bytes_size.toNat) (1024 * 1024 * 1024) : Int)

/-- Two byte counts fall in the same unit bracket of format_bytes. -/
def sameBracket (a b : Int) : Prop :=
  (a < KB ∧ b < KB) ∨
  (KB ≤ a ∧ a < MB ∧ KB ≤ b ∧ b < MB) ∨
  (MB ≤ a ∧ a < GB ∧ MB ≤ b ∧ b < GB) ∨
  (GB ≤ a ∧ GB ≤ b)

/-! ## Filesystem model and get_dir_size (source lines 50-73)

A path is observed by the source only through exists / is_file / stat /
rglob, all of which follow symlinks except that the recursive glob does
not descend into symlinked directories.  A `Node` is therefore the
resolved view of a path: `broken` for a nonexistent path (or a broken
symlink, whose exists() is false), `file` for a regular file target with
its size and a flag telling whether stat succeeds, `dir` with a flag
telling whether enumerating it succeeds (a failure is absorbed to a zero
contribution for that subtree, as the except clauses of the source and
the PermissionError suppression inside pathlib recursive glob do), and
`special` for any other file kind.  Each directory entry records whether
the entry itself is a symlink, since rglob does not recurse through
symlinked directories. -/

mutual

inductive Node where
  | broken : Node
  | special : Node
  | file : Nat → Bool → Node
  | dir : Bool → EntryList → Node

inductive EntryList where
  | nil : EntryList
  | cons : Bool → Node → EntryList → EntryList

end

/-- path.exists() on the resolved view of a path. -/
def nodeExists : Node → Bool
  | .broken => false
  | _ => true

mutual

/-- Total size accumulated by the rglob loop of get_dir_size over the
entries of a directory (source lines 62-71). -/
def walkSize : EntryList → Nat
  | .nil => 0
  | .cons isLink child rest => entryContribution isLink child + walkSize rest

/-- Contribution of one yielded entry: item.is_file() follows symlinks, so
an entry resolving to a regular file adds its target size (0 when stat
fails); the walk recurses into plain subdirectories but not into
symlinked ones; anything else adds nothing. -/
def entryContribution : Bool → Node → Nat
  | _, .broken => 0
  | _, .special => 0
  | _, .file sz ok => if ok then sz else 0
  | isLink, .dir wOk children => if isLink then 0 else if wOk then walkSize children else 0

end

/-- Embedding of get_dir_size (source lines 50-73): 0 for a nonexistent
path; a regular file yields its size with stat failure absorbed to 0; a
directory yields the walk total with an enumeration failure absorbed to
0; globbing a special non-directory yields nothing.  Every exception the
source can hit is caught there, which is why this function is total. -/
def get_dir_size : Node → Nat
  | .broken => 0
  | .file sz ok => if ok then sz else 0
  | .special => 0
  | .dir wOk children => if wOk then walkSize children else 0

mutual

/-- Modelled from the words of the spec (section 4.2): recursive sum of
the sizes of the regular files reachable by walking the directory tree,
with symlink entries contributing nothing.  Used only to compare the
spec sentence against get_dir_size. -/
def specWalk : EntryList → Nat
  | .nil => 0
  | .cons isLink child rest => (if isLink then 0 else specEntry child) + specWalk rest

/-- Spec-side contribution of one entry: plain files count their size,
plain directories are walked, everything else counts nothing. -/
def specEntry : Node → Nat
  | .file sz _ => sz
  | .dir _ children => specWalk children
  | _ => 0

end

/-- Spec-side directory size, following the words of claim C2. -/
def specDirSize : Node → Nat
  | .broken => 0
  | .special => 0
  | .file sz _ => sz
  | .dir _ children => specWalk children

mutual

/-- Every stat and every directory enumeration in the tree succeeds. -/
def allOkNode : Node → Bool
  | .broken => true
  | .special => true
  | .file _ ok => ok
  | .dir wOk children => wOk && allOkList children

def allOkList : EntryList → Bool
  | .nil => true
  | .cons _ child rest => allOkNode child && allOkList rest

end

mutual

/-- Amended spec-side walk for C2: an entry resolving to a regular file
(plain file or symlink to one) contributes the resolved target size;
plain subdirectories are walked, symlinked ones are not; broken symlinks
and special files contribute nothing. -/
def amendedWalk : EntryList → Nat
  | .nil => 0
  | .cons isLink child rest => amendedEntry isLink child + amendedWalk rest

def amendedEntry : Bool → Node → Nat
  | _, .broken => 0
  | _, .special => 0
  | _, .file sz _ => sz
  | isLink, .dir _ children => if isLink then 0 else amendedWalk children

end

/-- Amended spec-side size of a path for C2. -/
def amendedSize : Node → Nat
  | .broken => 0
  | .special => 0
  | .file sz _ => sz
  | .dir _ children => amendedWalk children

/-- A directory holding a single symlink whose target is a regular file
of 5 bytes: the walk yields the symlink, is_file() follows it, and its
target size is added. -/
def demoDir : Node :=
  Node.dir true (EntryList.cons true (Node.file 5 true) EntryList.nil)

/-- A directory holding a symlink to a 5-byte regular file next to a
plain 7-byte regular file, with every filesystem operation succeeding. -/
def demoMixed : Node :=
  Node.dir true
    (EntryList.cons true (Node.file 5 true)
      (EntryList.cons false (Node.file 7 true) EntryList.nil))

/-! ## Home directory resolution (source lines 76-108)

The OS world the resolver can observe: the current user identity and its
home directory (getpass.getuser and Path.home), an is_dir oracle for the
combined exists() and is_dir() probe the source performs on a candidate
path, and the outcome of spawning the dscl directory-service query, which
is either a spawn failure (missing binary or any exception, all caught by
the bare except of the source) or a return code with the text written to
stdout. -/

structure Env where
  current_user : String
  home : String
  is_dir : String → Bool
  dscl : String → Except Unit (Int × String)

/-- External actions the resolver performs, recorded so that theorems can
state that a branch runs without filesystem probing or process spawning. -/
inductive Effect where
  | probe : String → Effect
  | spawnDscl : String → Effect
deriving DecidableEq

/-- Source constant NFS_HOME_DIR_KEY (line 78). -/
def NFS_HOME_DIR_KEY : String := "NFSHomeDirectory:"

/-- Models str.splitlines for the line-feed separated dscl output the
source parses (source line 99). -/
def splitlines (s : String) : List String := s.splitOn "\n"

/-- For one output line, the body of the loop at source lines 99-104:
when NFS_HOME_DIR_KEY occurs in the line, the candidate path is the text
after its first occurrence, stripped of surrounding whitespace; the split
with count one followed by taking index one is the join of every part
after the first. -/
def extractCandidate (line : String) : Option String :=
  match line.splitOn NFS_HOME_DIR_KEY with
  | _ :: p :: ps => some ((String.intercalate NFS_HOME_DIR_KEY (p :: ps)).trim)
  | _ => none

/-- The scan over dscl output lines (source lines 99-104): the first line
whose extracted candidate is an existing directory wins; each candidate
check is a filesystem probe. -/
def searchNFSHome (env : Env) : List String → Option String × List Effect
  | [] => (none, [])
  | line :: rest =>
    match extractCandidate line with
    | some candidate =>
      if env.is_dir candidate then (some candidate, [Effect.probe candidate])
      else ((searchNFSHome env rest).1, Effect.probe candidate :: (searchNFSHome env rest).2)
    | none => searchNFSHome env rest

/-- Embedding of get_home_directory (source lines 76-108), returning the
resolved home (none models the Python None) together with the external
actions taken: the current user resolves immediately from the OS
environment, otherwise /Users/username is probed, otherwise the dscl
output is scanned, and every failure falls through to none. -/
def get_home_directory (env : Env) (username : String) : Option String × List Effect :=
  if username = env.current_user then (some env.home, [])
  else if env.is_dir ("/Users/" ++ username) then
    (some ("/Users/" ++ username), [Effect.probe ("/Users/" ++ username)])
  else
    match env.dscl username with
    | .error _ => (none, [Effect.probe ("/Users/" ++ username), Effect.spawnDscl username])
    | .ok (rc, out) =>
      if rc = 0 then
        ((searchNFSHome env (splitlines out)).1,
          Effect.probe ("/Users/" ++ username) :: Effect.spawnDscl username ::
            (searchNFSHome env (splitlines out)).2)
      else (none, [Effect.probe ("/Users/" ++ username), Effect.spawnDscl username])

/-- One dscl output line yields no home: either the key is absent (a
malformed or field-less line) or the extracted path is not an existing
directory. -/
def lineFails (env : Env) (line : String) : Prop :=
  ∀ candidate, extractCandidate line = some candidate → env.is_dir candidate = false

/-- Every failure mode of the external dscl query enumerated by C7: the
spawn itself fails (missing binary or any raised exception), or the exit
status is non-zero, or no output line yields an existing directory. -/
def step3Fails (env : Env) (username : String) : Prop :=
  match env.dscl username with
  | .error _ => True
  | .ok (rc, out) => rc ≠ 0 ∨ ∀ line ∈ splitlines out, lineFails env line

/-- A world where only the user alice exists, every filesystem probe
fails, and spawning dscl fails. -/
def envA : Env :=
  { current_user := "alice"
    home := "/Users/alice"
    is_dir := fun _ => false
    dscl := fun _ => Except.error () }

/-- A world where /Users/../tmp is an existing directory, so a crafted
username can escape the /Users tree. -/
def envTraversal : Env :=
  { current_user := "alice"
    home := "/Users/alice"
    is_dir := fun p => p == "/Users/../tmp"
    dscl := fun _ => Except.error () }

/-! ## Reporter and entry point (source lines 111-179)

Standard output is modelled structurally: one constructor per kind of
line the source prints.  ANSI color codes, the box-drawing banner and
separators, and the fixed-width padding of labels and sizes are
presentation only; the category label, the formatted size string, and
the order of the lines are kept. -/

inductive OutLine where
  | banner : OutLine
  | userHeader : String → OutLine
  | notFound : String → OutLine
  | category : String → String → OutLine
  | separator : OutLine
  | totalLine : String → OutLine
  | noData : String → OutLine
  | platformError : OutLine
  | blank : OutLine
deriving DecidableEq

/-- The world a full run observes: the resolver environment plus the
resolved view of every filesystem path. -/
structure World where
  env : Env
  fs : String → Node

/-- The fixed edge_dirs table (source lines 124-132): label and absolute
path of each of the seven Edge data categories under a home directory,
in insertion order; the Path division operator joins with a slash. -/
def edge_dirs (home_dir : String) : List (String × String) :=
  [("Application Support", home_dir ++ "/Library/Application Support/Microsoft Edge"),
   ("Caches", home_dir ++ "/Library/Caches/Microsoft Edge"),
   ("Cookies", home_dir ++ "/Library/Cookies/com.microsoft.edgemac.binarycookies"),
   ("HTTPStorages", home_dir ++ "/Library/HTTPStorages/com.microsoft.edgemac"),
   ("Preferences", home_dir ++ "/Library/Preferences/com.microsoft.edgemac.plist"),
   ("Saved Application State",
     home_dir ++ "/Library/Saved Application State/com.microsoft.edgemac.savedState"),
   ("WebKit", home_dir ++ "/Library/WebKit/com.microsoft.edgemac")]

/-- One iteration of the category loop (source lines 138-145) over the
accumulator (total_size, found_any, printed category lines): a path that
does not exist is skipped entirely; an existing path marks found_any and,
only when its size is positive, adds to the total and prints a line. -/
def reportStep (w : World) (acc : Nat × Bool × List OutLine) (entry : String × String) :
    Nat × Bool × List OutLine :=
  if nodeExists (w.fs entry.2) = true then
    if 0 < get_dir_size (w.fs entry.2) then
      (acc.1 + get_dir_size (w.fs entry.2), true,
        acc.2.2 ++ [OutLine.category entry.1 (format_bytes (get_dir_size (w.fs entry.2)))])
    else (acc.1, true, acc.2.2)
  else acc

/-- Embedding of calculate_edge_storage (source lines 111-155): resolve
the home directory, print an error and return false when that fails;
otherwise print the user header, loop over the category table, and close
with either the no-data notice (found_any false) or the separator and
total line; both of those paths return true. -/
def calculate_edge_storage (w : World) (username : String) : Bool × List OutLine :=
  match (get_home_directory w.env username).1 with
  | none => (false, [OutLine.notFound username])
  | some home_dir =>
    let r := (edge_dirs home_dir).foldl (reportStep w) (0, false, [])
    if r.2.1 = false then (true, [OutLine.userHeader username, OutLine.noData username])
    else
      (true, OutLine.userHeader username :: r.2.2 ++
        [OutLine.separator, OutLine.totalLine (format_bytes (r.1 : Int))])

/-- Embedding of main (source lines 158-179): on a non-Darwin platform,
print the error and exit with status 1 before any per-user processing;
otherwise print the banner, process each username of the argument list
in order (defaulting to the current user when none is given), print a
final blank line, and exit with status 0. -/
def main (osName : String) (args : List String) (w : World) : Int × List OutLine :=
  if osName ≠ "Darwin" then (1, [OutLine.platformError])
  else
    (0, OutLine.banner ::
      ((if args.isEmpty then [w.env.current_user] else args).map
        (fun u => (calculate_edge_storage w u).2)).flatten ++ [OutLine.blank])

/-- A world where no user but alice exists and no path exists at all. -/
def wA : World := { env := envA, fs := fun _ => Node.broken }

/-- A world where the only existing category path of alice is an empty
Caches directory, so its size is 0. -/
def wB : World :=
  { env := envA
    fs := fun p =>
      if p = "/Users/alice/Library/Caches/Microsoft Edge" then Node.dir true EntryList.nil
      else Node.broken }

/-! ## Lemmas about rounding -/

theorem roundHalfEven_core (d k r k' r' : Nat) (hkk : k ≤ k') (hr : k = k' → r ≤ r') :
    (if d < 2 * r then k + 1 else if 2 * r < d then k else k + k % 2) ≤
      (if d < 2 * r' then k' + 1 else if 2 * r' < d then k' else k' + k' % 2) := by
  rcases eq_or_lt_of_le hkk with he | hl
  · have hrr := hr he
    subst he
    split_ifs <;> omega
  · split_ifs <;> omega

theorem roundHalfEven_mono (d : Nat) {q q' : Nat} (h : q ≤ q') :
    roundHalfEven q d ≤ roundHalfEven q' d := by
  have hk : q / d ≤ q' / d := Nat.div_le_div_right h
  have hr : q / d = q' / d → q % d ≤ q' % d := by
    intro hkk
    have h1 := Nat.div_add_mod q d
    have h2 := Nat.div_add_mod q' d
    rw [← h1, ← h2, hkk] at h
    exact Nat.le_of_add_le_add_left h
  unfold roundHalfEven
  exact roundHalfEven_core d (q / d) (q % d) (q' / d) (q' % d) hk hr

theorem twoDigits_length : ∀ m < 100, ((if m < 10 then "0" else "") ++ toString m).length = 2 := by
  decide

theorem twoDecimalString_shape (c : Nat) :
    ∃ (k : Nat) (s : String), s.length = 2 ∧ twoDecimalString c = toString k ++ "." ++ s := by
  refine ⟨c / 100, (if c % 100 < 10 then "0" else "") ++ toString (c % 100), ?_, ?_⟩
  · exact twoDigits_length (c % 100) (Nat.mod_lt c (by norm_num))
  · unfold twoDecimalString
    simp [String.append_assoc]

/-- C1: format_bytes selects the unit by the 1024-based bracket the byte
count falls in: below 1024 an integer count with suffix B and no decimals,
otherwise the quotient by the bracket unit with exactly two decimal digits
and the bracket suffix; the stated boundary values evaluate as claimed. -/
theorem format_bytes_spec : ∀ b : Int,
    (b < KB → format_bytes b = toString b ++ "B") ∧
    (KB ≤ b → b < MB →
      ∃ (k : Nat) (s : String), s.length = 2 ∧ format_bytes b = toString k ++ "." ++ s ++ "KB") ∧
    (MB ≤ b → b < GB →
      ∃ (k : Nat) (s : String), s.length = 2 ∧ format_bytes b = toString k ++ "." ++ s ++ "MB") ∧
    (GB ≤ b →
      ∃ (k : Nat) (s : String), s.length = 2 ∧ format_bytes b = toString k ++ "." ++ s ++ "GB") ∧
    format_bytes 1023 = "1023B" ∧
    format_bytes 1024 = "1.00KB" ∧
    format_bytes 1048575 = "1024.00KB" ∧
    format_bytes 1048576 = "1.00MB" ∧
    format_bytes 1073741824 = "1.00GB" := by
  intro b
  refine ⟨?_, ?_, ?_, ?_, by decide, by decide, by decide, by decide, by decide⟩
  · intro h
    unfold format_bytes
    rw [if_pos h]
  · intro h1 h2
    unfold format_bytes
    rw [if_neg (by simp only [KB, MB, GB] at h1 ⊢; omega), if_pos h2]
    obtain ⟨k, s, hs, he⟩ := twoDecimalString_shape (roundHalfEven (100 * b.toNat) 1024)
    exact ⟨k, s, hs, by rw [he]⟩
  · intro h1 h2
    unfold format_bytes
    rw [if_neg (by simp only [KB, MB, GB] at h1 ⊢; omega), if_neg (by simp only [KB, MB, GB] at h1 ⊢; omega), if_pos h2]
    obtain ⟨k, s, hs, he⟩ := twoDecimalString_shape (roundHalfEven (100 * b.toNat) (1024 * 1024))
    exact ⟨k, s, hs, by rw [he]⟩
  · intro h1
    unfold format_bytes
    rw [if_neg (by simp only [KB, MB, GB] at h1 ⊢; omega), if_neg (by simp only [KB, MB, GB] at h1 ⊢; omega),
      if_neg (by simp only [KB, MB, GB] at h1 ⊢; omega)]
    obtain ⟨k, s, hs, he⟩ := twoDecimalString_shape (roundHalfEven (100 * b.toNat) (1024 * 1024 * 1024))
    exact ⟨k, s, hs, by rw [he]⟩

theorem format_bytes_spec_witness :
    KB ≤ (2048 : Int) ∧ (2048 : Int) < MB ∧
      ∃ (k : Nat) (s : String), s.length = 2 ∧ format_bytes 2048 = toString k ++ "." ++ s ++ "KB" :=
  ⟨by decide, by decide, (format_bytes_spec 2048).2.1 (by decide) (by decide)⟩

/-- C9: within one unit bracket, the centi-scaled numeric value that
format_bytes renders is monotone in the byte count. -/
theorem renderedCenti_mono (a b : Int) (h : sameBracket a b) (hab : a ≤ b) :
    renderedCenti a ≤ renderedCenti b := by
  have htn : a.toNat ≤ b.toNat := Int.toNat_le_toNat hab
  have hq : 100 * a.toNat ≤ 100 * b.toNat := Nat.mul_le_mul_left 100 htn
  rcases h with ⟨ha, hb⟩ | ⟨ha1, ha2, hb1, hb2⟩ | ⟨ha1, ha2, hb1, hb2⟩ | ⟨ha, hb⟩
  · unfold renderedCenti
    rw [if_pos ha, if_pos hb]
    omega
  · unfold renderedCenti
    simp only [KB, MB, GB] at ha1 ha2 hb1 hb2
    rw [if_neg (by simp only [KB, MB, GB]; omega), if_pos (by simp only [KB, MB, GB]; omega),
      if_neg (by simp only [KB, MB, GB]; omega), if_pos (by simp only [KB, MB, GB]; omega)]
    exact_mod_cast roundHalfEven_mono 1024 hq
  · unfold renderedCenti
    simp only [KB, MB, GB] at ha1 ha2 hb1 hb2
    rw [if_neg (by simp only [KB, MB, GB]; omega), if_neg (by simp only [KB, MB, GB]; omega), if_pos (by simp only [KB, MB, GB]; omega),
      if_neg (by simp only [KB, MB, GB]; omega), if_neg (by simp only [KB, MB, GB]; omega), if_pos (by simp only [KB, MB, GB]; omega)]
    exact_mod_cast roundHalfEven_mono (1024 * 1024) hq
  · unfold renderedCenti
    simp only [KB, MB, GB] at ha hb
    rw [if_neg (by simp only [KB, MB, GB]; omega), if_neg (by simp only [KB, MB, GB]; omega), if_neg (by simp only [KB, MB, GB]; omega),
      if_neg (by simp only [KB, MB, GB]; omega), if_neg (by simp only [KB, MB, GB]; omega), if_neg (by simp only [KB, MB, GB]; omega)]
    exact_mod_cast roundHalfEven_mono (1024 * 1024 * 1024) hq

mutual

theorem entryContribution_eq_amendedEntry (isLink : Bool) (n : Node)
    (h : allOkNode n = true) : entryContribution isLink n = amendedEntry isLink n := by
  cases n with
  | broken => rfl
  | special => rfl
  | file sz ok =>
    have hok : ok = true := by simpa [allOkNode] using h
    subst hok
    rfl
  | dir wOk children =>
    simp only [allOkNode, Bool.and_eq_true] at h
    cases isLink with
    | true => simp [entryContribution, amendedEntry]
    | false =>
      simp only [entryContribution, amendedEntry, h.1, if_true, if_false, Bool.false_eq_true]
      exact walkSize_eq_amendedWalk children h.2

theorem walkSize_eq_amendedWalk (l : EntryList) (h : allOkList l = true) :
    walkSize l = amendedWalk l := by
  cases l with
  | nil => rfl
  | cons isLink child rest =>
    simp only [allOkList, Bool.and_eq_true] at h
    simp only [walkSize, amendedWalk]
    rw [entryContribution_eq_amendedEntry isLink child h.1, walkSize_eq_amendedWalk rest h.2]

end

/-- C2 (amended): when every stat and enumeration in the tree succeeds,
get_dir_size is the recursive sum over the walk in which every entry
resolving to a regular file, including a symlink to one, contributes the
resolved target size; symlinked directories are not recursed into; broken
symlinks, special files, and directory overhead contribute nothing. -/
theorem get_dir_size_amended (n : Node) (h : allOkNode n = true) :
    get_dir_size n = amendedSize n := by
  cases n with
  | broken => rfl
  | special => rfl
  | file sz ok =>
    have hok : ok = true := by simpa [allOkNode] using h
    subst hok
    rfl
  | dir wOk children =>
    simp only [allOkNode, Bool.and_eq_true] at h
    simp only [get_dir_size, amendedSize, h.1, if_true]
    exact walkSize_eq_amendedWalk children h.2

theorem get_dir_size_amended_witness :
    allOkNode demoMixed = true ∧ get_dir_size demoMixed = amendedSize demoMixed :=
  ⟨by decide, get_dir_size_amended demoMixed (by decide)⟩

/-- C2 fails as stated: on a directory containing one symlink to a 5-byte
regular file, the code counts the 5 bytes of the symlink target, while
the claim says symlinks contribute nothing to the recursive sum. -/
theorem get_dir_size_symlink_counterexample :
    get_dir_size demoDir = 5 ∧ specDirSize demoDir = 0 ∧
      get_dir_size demoDir ≠ specDirSize demoDir :=
  ⟨by decide, by decide, by decide⟩

/-- C5: get_dir_size is total over every modelled filesystem condition
(the source catches every OSError and PermissionError it can encounter,
so the embedding returns a plain Nat): a nonexistent path yields 0, an
unreadable file yields 0 at top level and contributes 0 inside a walk, a
directory whose enumeration fails yields 0, and the result is always
non-negative. -/
theorem get_dir_size_safety :
    get_dir_size Node.broken = 0 ∧
    (∀ sz : Nat, get_dir_size (Node.file sz false) = 0) ∧
    (∀ children : EntryList, get_dir_size (Node.dir false children) = 0) ∧
    (∀ (isLink : Bool) (sz : Nat) (rest : EntryList),
      walkSize (EntryList.cons isLink (Node.file sz false) rest) = walkSize rest) ∧
    (∀ n : Node, 0 ≤ get_dir_size n) := by
  refine ⟨rfl, fun sz => rfl, fun children => rfl, fun isLink sz rest => ?_, fun n => Nat.zero_le _⟩
  simp [walkSize, entryContribution]

theorem renderedCenti_mono_witness :
    sameBracket 1024 2048 ∧ renderedCenti 1024 ≤ renderedCenti 2048 :=
  ⟨Or.inr (Or.inl ⟨by decide, by decide, by decide, by decide⟩),
    renderedCenti_mono 1024 2048
      (Or.inr (Or.inl ⟨by decide, by decide, by decide, by decide⟩)) (by decide)⟩

theorem searchNFSHome_fst_none (env : Env) :
    ∀ ls : List String, (∀ line ∈ ls, lineFails env line) → (searchNFSHome env ls).1 = none := by
  intro ls
  induction ls with
  | nil => intro _; rfl
  | cons line rest ih =>
    intro h
    have hline := h line (List.mem_cons_self line rest)
    have hrest : ∀ x ∈ rest, lineFails env x := fun x hx => h x (List.mem_cons_of_mem _ hx)
    cases hc : extractCandidate line with
    | none => simp only [searchNFSHome, hc]; exact ih hrest
    | some candidate =>
      have hdir := hline candidate hc
      simp only [searchNFSHome, hc, hdir, Bool.false_eq_true, if_false]
      exact ih hrest

/-- C6: a username equal to the current OS user resolves immediately to
the known home directory of that user, with an empty effect trace: the
path /Users/username is never probed and dscl is never spawned. -/
theorem get_home_directory_current_user (env : Env) (username : String)
    (h : username = env.current_user) :
    get_home_directory env username = (some env.home, []) := by
  unfold get_home_directory
  rw [if_pos h]

theorem get_home_directory_current_user_witness :
    get_home_directory envA "alice" = (some "/Users/alice", []) :=
  get_home_directory_current_user envA "alice" rfl

/-- C7: when the username is not the current user and /Users/username is
not a directory, every enumerated failure of the dscl step (spawn error,
non-zero exit status, malformed or field-less output, extracted path not
an existing directory) makes the resolver return none; the embedding is
total, mirroring that the source catches every exception of this step. -/
theorem get_home_directory_step3_failures (env : Env) (username : String)
    (h1 : username ≠ env.current_user)
    (h2 : env.is_dir ("/Users/" ++ username) = false)
    (h3 : step3Fails env username) :
    (get_home_directory env username).1 = none := by
  unfold get_home_directory
  rw [if_neg h1, if_neg (by simp [h2])]
  unfold step3Fails at h3
  cases hd : env.dscl username with
  | error e => simp
  | ok pair =>
    rw [hd] at h3
    obtain ⟨rc, out⟩ := pair
    rcases h3 with hrc | hlines
    · simp [hrc]
    · by_cases hrc : rc = 0
      · simp [hrc]
        exact searchNFSHome_fst_none env (splitlines out) hlines
      · simp [hrc]

theorem get_home_directory_step3_failures_witness :
    ("bob" ≠ envA.current_user) ∧ envA.is_dir ("/Users/" ++ "bob") = false ∧
      (get_home_directory envA "bob").1 = none :=
  ⟨by decide, rfl,
    get_home_directory_step3_failures envA "bob" (by decide) rfl trivial⟩

/-- C10: the username is interpolated into /Users/username with no
sanitization, so for any username other than the current user that path
is returned verbatim whenever the probe reports an existing directory,
including usernames with parent references that resolve outside /Users. -/
theorem get_home_directory_no_sanitization (env : Env) (username : String)
    (h1 : username ≠ env.current_user)
    (h2 : env.is_dir ("/Users/" ++ username) = true) :
    (get_home_directory env username).1 = some ("/Users/" ++ username) := by
  unfold get_home_directory
  rw [if_neg h1, if_pos h2]

theorem get_home_directory_no_sanitization_witness :
    ("../tmp" ≠ envTraversal.current_user) ∧
      (get_home_directory envTraversal "../tmp").1 = some "/Users/../tmp" :=
  ⟨by decide,
    get_home_directory_no_sanitization envTraversal "../tmp" (by decide) (by decide)⟩

theorem foldl_reportStep_none (w : World) :
    ∀ (l : List (String × String)) (acc : Nat × Bool × List OutLine),
      (∀ e ∈ l, nodeExists (w.fs e.2) = false) → l.foldl (reportStep w) acc = acc := by
  intro l
  induction l with
  | nil => intro acc _; rfl
  | cons e rest ih =>
    intro acc h
    have he := h e (List.mem_cons_self e rest)
    have hrest : ∀ x ∈ rest, nodeExists (w.fs x.2) = false :=
      fun x hx => h x (List.mem_cons_of_mem _ hx)
    have hstep : reportStep w acc e = acc := by
      unfold reportStep
      rw [if_neg (by simp [he])]
    rw [List.foldl_cons, hstep]
    exact ih acc hrest

theorem foldl_reportStep_zero (w : World) :
    ∀ (l : List (String × String)) (t : Nat) (f : Bool) (L : List OutLine),
      (∀ e ∈ l, get_dir_size (w.fs e.2) = 0) →
      l.foldl (reportStep w) (t, f, L) =
        (t, (f || l.any fun e => nodeExists (w.fs e.2)), L) := by
  intro l
  induction l with
  | nil => intro t f L _; simp
  | cons e rest ih =>
    intro t f L h
    have he := h e (List.mem_cons_self e rest)
    have hrest : ∀ x ∈ rest, get_dir_size (w.fs x.2) = 0 :=
      fun x hx => h x (List.mem_cons_of_mem _ hx)
    rw [List.foldl_cons, List.any_cons]
    by_cases hex : nodeExists (w.fs e.2) = true
    · have hstep : reportStep w (t, f, L) e = (t, true, L) := by
        unfold reportStep
        rw [if_pos hex, he]
        simp
      rw [hstep, ih t true L hrest, hex]
      simp
    · have hex' : nodeExists (w.fs e.2) = false := by simpa using hex
      have hstep : reportStep w (t, f, L) e = (t, f, L) := by
        unfold reportStep
        rw [if_neg (by simp [hex'])]
      rw [hstep, ih t f L hrest, hex']
      simp

/-- C3: the reporter returns false exactly when the resolver returns
none, printing the error line naming the user in that case; when the
home resolves but no category path exists, it prints the header and the
no-data notice and still returns true. -/
theorem calculate_edge_storage_spec (w : World) (username : String) :
    ((calculate_edge_storage w username).1 = false ↔
      (get_home_directory w.env username).1 = none) ∧
    ((get_home_directory w.env username).1 = none →
      (calculate_edge_storage w username).2 = [OutLine.notFound username]) ∧
    (∀ home_dir, (get_home_directory w.env username).1 = some home_dir →
      (∀ e ∈ edge_dirs home_dir, nodeExists (w.fs e.2) = false) →
      calculate_edge_storage w username =
        (true, [OutLine.userHeader username, OutLine.noData username])) := by
  refine ⟨?_, ?_, ?_⟩
  · cases hres : (get_home_directory w.env username).1 with
    | none => simp [calculate_edge_storage, hres]
    | some home_dir =>
      simp only [calculate_edge_storage, hres]
      by_cases hf : ((edge_dirs home_dir).foldl (reportStep w) (0, false, [])).2.1 = false
      · simp [hf]
      · simp [hf]
  · intro hres
    simp [calculate_edge_storage, hres]
  · intro home_dir hres hnone
    have hfold := foldl_reportStep_none w (edge_dirs home_dir) (0, false, []) hnone
    simp [calculate_edge_storage, hres, hfold]

theorem calculate_edge_storage_spec_witness :
    (get_home_directory wA.env "ghost").1 = none ∧
      calculate_edge_storage wA "ghost" = (false, [OutLine.notFound "ghost"]) := by
  have h := calculate_edge_storage_spec wA "ghost"
  have hres : (get_home_directory wA.env "ghost").1 = none := rfl
  refine ⟨hres, ?_⟩
  have h1 := h.1.mpr hres
  have h2 := h.2.1 hres
  cases hcalc : calculate_edge_storage wA "ghost" with
  | mk fst snd =>
    rw [hcalc] at h1 h2
    simp only at h1 h2
    rw [h1, h2]

/-- C4: an existing category path of size 0 marks the user as found, adds
nothing to the total and prints no category line; a user whose existing
category paths all have size 0 gets the header, the separator and a 0B
total line, with no category lines and no no-data notice. -/
theorem calculate_edge_storage_zero_sizes (w : World) :
    (∀ (acc : Nat × Bool × List OutLine) (label path : String),
      nodeExists (w.fs path) = true → get_dir_size (w.fs path) = 0 →
      reportStep w acc (label, path) = (acc.1, true, acc.2.2)) ∧
    (∀ username home_dir, (get_home_directory w.env username).1 = some home_dir →
      (∃ e ∈ edge_dirs home_dir, nodeExists (w.fs e.2) = true) →
      (∀ e ∈ edge_dirs home_dir, get_dir_size (w.fs e.2) = 0) →
      calculate_edge_storage w username =
        (true, [OutLine.userHeader username, OutLine.separator, OutLine.totalLine "0B"])) := by
  constructor
  · intro acc label path hex hz
    unfold reportStep
    rw [if_pos hex]
    simp [hz]
  · intro username home_dir hres hex hz
    have hfold := foldl_reportStep_zero w (edge_dirs home_dir) 0 false [] hz
    have hany : ((edge_dirs home_dir).any fun e => nodeExists (w.fs e.2)) = true := by
      rw [List.any_eq_true]
      obtain ⟨e, he, hee⟩ := hex
      exact ⟨e, he, hee⟩
    rw [hany] at hfold
    simp [calculate_edge_storage, hres, hfold]
    decide

theorem calculate_edge_storage_zero_sizes_witness :
    calculate_edge_storage wB "alice" =
      (true, [OutLine.userHeader "alice", OutLine.separator, OutLine.totalLine "0B"]) :=
  (calculate_edge_storage_zero_sizes wB).2 "alice" "/Users/alice" rfl
    ⟨("Caches", "/Users/alice/Library/Caches/Microsoft Edge"), by decide, by decide⟩
    (by decide)

/-- C8: on Darwin the exit status is 0 no matter how many usernames fail
to resolve; the output is the banner followed by the sections of every
argument in order (a not-found user does not stop the processing of the
following arguments); only a non-Darwin platform yields the non-zero
status, before any per-user processing. -/
theorem main_spec (args : List String) (w : World) :
    (main "Darwin" args w).1 = 0 ∧
    (args ≠ [] →
      (main "Darwin" args w).2 =
        OutLine.banner ::
          (args.map fun u => (calculate_edge_storage w u).2).flatten ++ [OutLine.blank]) ∧
    (∀ osName, osName ≠ "Darwin" → main osName args w = (1, [OutLine.platformError])) := by
  refine ⟨?_, ?_, ?_⟩
  · simp [main]
  · intro hargs
    simp [main, List.isEmpty_eq_false_iff_exists_mem]
    cases args with
    | nil => exact absurd rfl hargs
    | cons a l => simp
  · intro osName hos
    unfold main
    rw [if_pos hos]

theorem main_spec_witness :
    (main "Darwin" ["bob", "alice"] wA).1 = 0 ∧
      main "Linux" ["bob", "alice"] wA = (1, [OutLine.platformError]) :=
  ⟨(main_spec ["bob", "alice"] wA).1,
    (main_spec ["bob", "alice"] wA).2.2 "Linux" (by decide)⟩

end EdgeStorage
